import Mathlib

/-!
Verification of the enrollment/transaction workflow of the
Learning-Management-System backend
(`server/src/controllers/courseController.ts`).

The controller functions are embedded as pure Lean functions over an
explicit store state `DB`.  External stores (the Dynamoose course,
transaction and progress models; S3; Stripe) are modelled as operations
on that state; calls that can fail (the awaited store writes inside the
`try` block) are parametrised by a failure oracle.  Each controller
returns its HTTP-level result, the updated state, and a trace of the
store operations it issued, in order.
-/

namespace LMS

/-- A chapter of a course section (`section.chapters[i]` in the source). -/
structure Chapter where
  chapterId : String
  deriving DecidableEq, Repr

/-- A section of a course (`course.sections[i]` in the source). -/
structure Section where
  sectionId : String
  chapters : List Chapter
  deriving DecidableEq, Repr

/-- A course record.  Enrollment entries are `{ userId }` objects in the
source; each is represented here by its `userId` string. -/
structure Course where
  id : String
  title : String
  teacherName : String
  price : Int
  sections : List Section
  enrollments : List String
  deriving DecidableEq, Repr

/-- A purchase transaction record, as built in `createTransaction`. -/
structure Transaction where
  dateTime : String
  userId : String
  courseId : String
  transactionId : String
  amount : Int
  paymentProvider : String
  deriving DecidableEq, Repr

/-- Per-chapter completion entry of a progress record. -/
structure ProgressChapter where
  chapterId : String
  completed : Bool
  deriving DecidableEq, Repr

/-- Per-section entry of a progress record. -/
structure ProgressSection where
  sectionId : String
  chapters : List ProgressChapter
  deriving DecidableEq, Repr

/-- A user-course progress record, as built in `createTransaction`. -/
structure UserCourseProgress where
  userId : String
  courseId : String
  enrollmentDate : String
  overallProgress : Int
  sections : List ProgressSection
  lastAccessedTimestamp : String
  deriving DecidableEq, Repr

/-- The combined state of the three external stores. -/
structure DB where
  courses : List Course
  transactions : List Transaction
  progresses : List UserCourseProgress
  deriving DecidableEq, Repr

/-- `Course.get(courseId)`: look up a course by its identifier. -/
def getCourse (db : DB) (courseId : String) : Option Course :=
  db.courses.find? (fun c => c.id == courseId)

/-- Modelled from the spec: the Dynamoose model files defining the store
schemas are not under `src/`; section 5 of the spec states that
transaction writes are "uniquely-keyed writes (transaction identifier)".
`transaction.save()` is therefore a keyed put: it replaces the record
with the same `transactionId` if one exists, otherwise appends. -/
def saveTransaction (db : DB) (t : Transaction) : DB :=
  if db.transactions.any (fun u => u.transactionId == t.transactionId) then
    { db with transactions :=
        db.transactions.map (fun u => if u.transactionId == t.transactionId then t else u) }
  else
    { db with transactions := db.transactions ++ [t] }

/-- Modelled from the spec: the Dynamoose model files are not under
`src/`; the spec keys progress records by the `(userId, courseId)`
composite key, so `progress.save()` is a keyed put on that key. -/
def saveProgress (db : DB) (p : UserCourseProgress) : DB :=
  if db.progresses.any (fun q => q.userId == p.userId && q.courseId == p.courseId) then
    { db with progresses :=
        db.progresses.map (fun q =>
          if q.userId == p.userId && q.courseId == p.courseId then p else q) }
  else
    { db with progresses := db.progresses ++ [p] }

/-- Modelled from the spec: the course model schema for the
`enrollments` attribute is not under `src/`.  The spec describes the
`$ADD`-based enrollment update as an "additive/idempotent-append update
primitive" to be modelled "as a commutative merge operation (a set
union)": adding a `userId` already present leaves the collection
unchanged, otherwise it is appended. -/
def addEnrollment (c : Course) (userId : String) : Course :=
  if userId ∈ c.enrollments then c
  else { c with enrollments := c.enrollments ++ [userId] }

/-- Apply the `$ADD`-enrollments update to the course with the given id
(`Course.update({id: courseId}, {$ADD: {enrollments: [{userId}]}})`). -/
def updateEnroll (db : DB) (courseId userId : String) : DB :=
  { db with courses :=
      db.courses.map (fun c => if c.id == courseId then addEnrollment c userId else c) }

/-- HTTP-level result of a controller call. -/
inductive ApiResult (α : Type) where
  | ok (value : α)
  | notFound (message : String)
  | serverError (message : String)
  deriving DecidableEq, Repr

/-- The HTTP status code of a controller result. -/
def ApiResult.status {α : Type} : ApiResult α → Nat
  | .ok _ => 200
  | .notFound _ => 404
  | .serverError _ => 500

/-- A patch passed to `Course.update`: either a plain field patch (the
`updates` body of `updateCourse`) or the additive `$ADD` enrollments
patch used by `createTransaction`.  The field patch is an association
list of field name / value pairs. -/
inductive CoursePatch where
  | fields (payload : List (String × String))
  | addEnrollments (userIds : List String)
  deriving DecidableEq, Repr

/-- One store operation issued by a controller, in the order issued. -/
inductive Event where
  | courseGet (courseId : String)
  | txnSave (t : Transaction)
  | progressSave (p : UserCourseProgress)
  | courseUpdate (courseId : String) (patch : CoursePatch)
  | s3Put (key : String)
  deriving DecidableEq, Repr

/-- Failure oracle for the three awaited writes inside the `try` block
of `createTransaction`: `false` means the corresponding `await` throws. -/
structure Oracle where
  txnOk : Bool
  progressOk : Bool
  enrollOk : Bool
  deriving DecidableEq, Repr

/-- The request body of `createTransaction`. -/
structure PurchaseRequest where
  userId : String
  courseId : String
  transactionId : String
  amount : Int
  paymentProvider : String
  deriving DecidableEq, Repr

/-- The success payload of `createTransaction`
(`{ transaction, courseProgress }`). -/
structure PurchaseOk where
  transaction : Transaction
  courseProgress : UserCourseProgress
  deriving DecidableEq, Repr

/-- The `new Transaction({...})` record built by `createTransaction`. -/
def mkTransaction (req : PurchaseRequest) (now : String) : Transaction :=
  { dateTime := now
    userId := req.userId
    courseId := req.courseId
    transactionId := req.transactionId
    amount := req.amount
    paymentProvider := req.paymentProvider }

/-- The `initialProgress` record built by `createTransaction`: it deep
copies the course's section/chapter structure, with every chapter's
`completed` flag set to `false` and `overallProgress` 0. -/
def initialProgressFor (req : PurchaseRequest) (now : String) (course : Course) :
    UserCourseProgress :=
  { userId := req.userId
    courseId := req.courseId
    enrollmentDate := now
    overallProgress := 0
    sections := course.sections.map (fun s =>
      { sectionId := s.sectionId
        chapters := s.chapters.map (fun ch =>
          { chapterId := ch.chapterId, completed := false }) })
    lastAccessedTimestamp := now }

/-- The generic catch-all error message of `createTransaction`. -/
def transactionFailedMsg : String := "Error creating transaction and enrollment"

/-- Embedding of `createTransaction` (the `purchaseCourse` flow).
Returns the HTTP result, the final store state and the trace of store
operations issued, in order.  A failed write appears in the trace (the
call was issued) but has no effect on the state. -/
def createTransaction (db : DB) (req : PurchaseRequest) (now : String) (oracle : Oracle) :
    ApiResult PurchaseOk × DB × List Event :=
  match getCourse db req.courseId with
  | none => (.notFound "Course not found", db, [.courseGet req.courseId])
  | some course =>
    let t := mkTransaction req now
    if oracle.txnOk = false then
      (.serverError transactionFailedMsg, db, [.courseGet req.courseId, .txnSave t])
    else
      let db1 := saveTransaction db t
      let p := initialProgressFor req now course
      if oracle.progressOk = false then
        (.serverError transactionFailedMsg, db1,
          [.courseGet req.courseId, .txnSave t, .progressSave p])
      else
        let db2 := saveProgress db1 p
        if oracle.enrollOk = false then
          (.serverError transactionFailedMsg, db2,
            [.courseGet req.courseId, .txnSave t, .progressSave p,
             .courseUpdate req.courseId (.addEnrollments [req.userId])])
        else
          let db3 := updateEnroll db2 req.courseId req.userId
          (.ok { transaction := t, courseProgress := p }, db3,
            [.courseGet req.courseId, .txnSave t, .progressSave p,
             .courseUpdate req.courseId (.addEnrollments [req.userId])])

/-- A Stripe payment intent, as far as the controller observes it. -/
structure PaymentIntent where
  amount : Int
  currency : String
  clientSecret : String
  deriving DecidableEq, Repr

/-- The success payload of `createStripePaymentIntent`
(`{ clientSecret }`). -/
structure IntentOk where
  clientSecret : String
  deriving DecidableEq, Repr

/-- The amount coercion at the top of `createStripePaymentIntent`:
`if (!amount || amount <= 0) amount = 50`.  An absent amount is `none`;
`!amount` is true for an absent amount and for `0`, and `amount <= 0`
covers the negatives. -/
def coerceAmount : Option Int → Int
  | none => 50
  | some a => if a = 0 ∨ a ≤ 0 then 50 else a

/-- Embedding of `createStripePaymentIntent`.  The Stripe gateway is an
abstract function from the charged amount to the created intent; the
controller returns the intent's client secret. -/
def createStripePaymentIntent (gateway : Int → PaymentIntent)
    (amount : Option Int) : ApiResult IntentOk :=
  let a := coerceAmount amount
  let intent := gateway a
  .ok { clientSecret := intent.clientSecret }

/-- Embedding of `listTransactions`: with a `userId` query parameter the
transaction store is queried by user, otherwise the whole store is
scanned. -/
def listTransactions (db : DB) (userId : Option String) : ApiResult (List Transaction) :=
  match userId with
  | some uid => .ok (db.transactions.filter (fun t => t.userId == uid))
  | none => .ok db.transactions

/-- The uploaded file of a multipart `updateCourse` request (`req.file`). -/
structure UploadedFile where
  originalname : String
  mimetype : String
  deriving DecidableEq, Repr

/-- The S3 object key used by `updateCourse` for a course image. -/
def imageKey (courseId name : String) : String :=
  "courses/" ++ courseId ++ "/" ++ name

/-- The public object URL `updateCourse` writes into `updates.imageUrl`. -/
def imageUrl (bucket region courseId name : String) : String :=
  "https://" ++ bucket ++ ".s3." ++ region ++ ".amazonaws.com/" ++ imageKey courseId name

/-- `updates.imageUrl = url` on the field-patch association list:
overwrite the field if present, otherwise add it. -/
def setField (updates : List (String × String)) (k v : String) : List (String × String) :=
  if updates.any (fun q => q.1 == k) then
    updates.map (fun q => if q.1 == k then (k, v) else q)
  else
    updates ++ [(k, v)]

/-- Embedding of `updateCourse`: when a file is attached it is uploaded
to S3 and the object URL is merged into the update payload as
`imageUrl`; then `Course.update` is issued with the payload.  Returns
the trace of store operations, in order. -/
def updateCourse (bucket region courseId : String)
    (updates : List (String × String)) (file : Option UploadedFile) : List Event :=
  match file with
  | some f =>
    let payload := setField updates "imageUrl" (imageUrl bucket region courseId f.originalname)
    [.s3Put (imageKey courseId f.originalname), .courseUpdate courseId (.fields payload)]
  | none =>
    [.courseUpdate courseId (.fields updates)]

/-! ## Concurrency model

A purchase, once past the course-existence check, issues three store
writes.  Two concurrent requests interleave those writes in some order;
each write is a single atomic store operation. -/

/-- One atomic store write. -/
inductive StoreOp where
  | opSaveTxn (t : Transaction)
  | opSaveProgress (p : UserCourseProgress)
  | opAddEnroll (courseId userId : String)
  deriving DecidableEq, Repr

/-- Apply one atomic store write to the store state. -/
def applyOp (db : DB) : StoreOp → DB
  | .opSaveTxn t => saveTransaction db t
  | .opSaveProgress p => saveProgress db p
  | .opAddEnroll courseId userId => updateEnroll db courseId userId

/-- Apply a sequence of store writes, left to right. -/
def applyOps (db : DB) : List StoreOp → DB
  | [] => db
  | op :: rest => applyOps (applyOp db op) rest

/-- The write sequence of one `createTransaction` call for request
`req` at time `now` against the course it read. -/
def purchaseOps (req : PurchaseRequest) (now : String) (course : Course) : List StoreOp :=
  [.opSaveTxn (mkTransaction req now),
   .opSaveProgress (initialProgressFor req now course),
   .opAddEnroll req.courseId req.userId]

/-- `Interleaving xs ys zs`: `zs` is an interleaving of `xs` and `ys`
preserving the internal order of each. -/
inductive Interleaving : List StoreOp → List StoreOp → List StoreOp → Prop where
  | nil : Interleaving [] [] []
  | left {x : StoreOp} {xs ys zs : List StoreOp} :
      Interleaving xs ys zs → Interleaving (x :: xs) ys (x :: zs)
  | right {y : StoreOp} {xs ys zs : List StoreOp} :
      Interleaving xs ys zs → Interleaving xs (y :: ys) (y :: zs)

/-! ## Basic store lemmas -/

lemma saveTransaction_courses (db : DB) (t : Transaction) :
    (saveTransaction db t).courses = db.courses := by
  unfold saveTransaction; split <;> rfl

lemma saveTransaction_progresses (db : DB) (t : Transaction) :
    (saveTransaction db t).progresses = db.progresses := by
  unfold saveTransaction; split <;> rfl

lemma saveProgress_courses (db : DB) (p : UserCourseProgress) :
    (saveProgress db p).courses = db.courses := by
  unfold saveProgress; split <;> rfl

lemma saveProgress_transactions (db : DB) (p : UserCourseProgress) :
    (saveProgress db p).transactions = db.transactions := by
  unfold saveProgress; split <;> rfl

lemma updateEnroll_transactions (db : DB) (cid uid : String) :
    (updateEnroll db cid uid).transactions = db.transactions := rfl

lemma updateEnroll_progresses (db : DB) (cid uid : String) :
    (updateEnroll db cid uid).progresses = db.progresses := rfl

lemma saveTransaction_mem (db : DB) (t : Transaction) :
    t ∈ (saveTransaction db t).transactions := by
  unfold saveTransaction
  split
  · next h =>
    rcases List.any_eq_true.mp h with ⟨u, hu, hkey⟩
    exact List.mem_map.mpr ⟨u, hu, by simp [hkey]⟩
  · simp

lemma saveTransaction_of_fresh (db : DB) (t : Transaction)
    (h : ∀ u ∈ db.transactions, u.transactionId ≠ t.transactionId) :
    (saveTransaction db t).transactions = db.transactions ++ [t] := by
  unfold saveTransaction
  have hany : db.transactions.any (fun u => u.transactionId == t.transactionId) = false := by
    rw [List.any_eq_false]
    intro u hu
    simpa using h u hu
  rw [hany]
  simp

lemma saveProgress_of_fresh (db : DB) (p : UserCourseProgress)
    (h : ∀ q ∈ db.progresses, ¬(q.userId = p.userId ∧ q.courseId = p.courseId)) :
    (saveProgress db p).progresses = db.progresses ++ [p] := by
  unfold saveProgress
  have hany : db.progresses.any
      (fun q => q.userId == p.userId && q.courseId == p.courseId) = false := by
    rw [List.any_eq_false]
    intro q hq
    simp only [Bool.and_eq_true, beq_iff_eq]
    exact h q hq
  rw [hany]
  simp

/-! ## Enrollment-merge lemmas -/

lemma addEnrollment_id (c : Course) (uid : String) :
    (addEnrollment c uid).id = c.id := by
  unfold addEnrollment; split <;> rfl

lemma mem_addEnrollment_iff (c : Course) (uid x : String) :
    x ∈ (addEnrollment c uid).enrollments ↔ x ∈ c.enrollments ∨ x = uid := by
  unfold addEnrollment
  split
  · next h =>
    constructor
    · exact Or.inl
    · rintro (hx | rfl)
      · exact hx
      · exact h
  · simp [List.mem_append]

lemma mem_addEnrollment (c : Course) (uid : String) :
    uid ∈ (addEnrollment c uid).enrollments :=
  (mem_addEnrollment_iff c uid uid).mpr (Or.inr rfl)

lemma addEnrollment_of_not_mem (c : Course) (uid : String) (h : uid ∉ c.enrollments) :
    addEnrollment c uid = { c with enrollments := c.enrollments ++ [uid] } := by
  unfold addEnrollment
  rw [if_neg h]

lemma getCourse_updateEnroll (db : DB) (cid2 uid qid : String) :
    getCourse (updateEnroll db cid2 uid) qid =
      (getCourse db qid).map (fun c => if c.id == cid2 then addEnrollment c uid else c) := by
  unfold getCourse updateEnroll
  have hid : ∀ c : Course, (if c.id == cid2 then addEnrollment c uid else c).id = c.id := by
    intro c; split <;> simp [addEnrollment_id]
  rw [List.find?_map]
  have hp : ((fun c : Course => c.id == qid) ∘
      fun c => if c.id == cid2 then addEnrollment c uid else c) =
      (fun c : Course => c.id == qid) := by
    funext c
    simp only [Function.comp_apply, hid c]
  rw [hp]

lemma getCourse_found_id (db : DB) (cid : String) (c : Course)
    (h : getCourse db cid = some c) : c.id = cid := by
  have := List.find?_some h
  exact beq_iff_eq.mp this

/-! ## Trace-ordering machinery -/

/-- Is this event the transaction write (`newTransaction.save()`)? -/
def isTxnSave : Event → Bool
  | .txnSave _ => true
  | _ => false

/-- Is this event one of the two writes that must follow the
transaction write (progress save or course-enrollment update)? -/
def isDownstreamWrite : Event → Bool
  | .progressSave _ => true
  | .courseUpdate _ _ => true
  | _ => false

/-- Scanner: `true` iff every downstream write in the trace is preceded
by some transaction-save event. -/
def txnFirst : List Event → Bool
  | [] => true
  | e :: rest =>
    if isDownstreamWrite e then false
    else if isTxnSave e then true
    else txnFirst rest

lemma txnFirst_spec (l : List Event) (h : txnFirst l = true) :
    ∀ i, ∀ hi : i < l.length, isDownstreamWrite (l.get ⟨i, hi⟩) = true →
      ∃ j, j < i ∧ ∃ hj : j < l.length, isTxnSave (l.get ⟨j, hj⟩) = true := by
  induction l with
  | nil => intro i hi; exact absurd hi (by simp)
  | cons e rest ih =>
    intro i hi hw
    unfold txnFirst at h
    by_cases hde : isDownstreamWrite e = true
    · rw [if_pos hde] at h; exact absurd h (by simp)
    · rw [if_neg hde] at h
      match i with
      | 0 => exact absurd hw hde
      | Nat.succ k =>
        by_cases hte : isTxnSave e = true
        · exact ⟨0, Nat.succ_pos k, by simpa using hte⟩
        · rw [if_neg hte] at h
          have hk : k < rest.length := Nat.lt_of_succ_lt_succ hi
          have hw2 : isDownstreamWrite (rest.get ⟨k, hk⟩) = true := by
            simpa using hw
          rcases ih h k hk hw2 with ⟨j, hji, hj, hts⟩
          exact ⟨j + 1, Nat.succ_lt_succ hji, Nat.succ_lt_succ hj, by simpa using hts⟩

/-! ## Concurrency lemmas -/

lemma applyOp_getCourse_mono (db : DB) (op : StoreOp) (cid : String) (c : Course)
    (h : getCourse db cid = some c) :
    ∃ c2, getCourse (applyOp db op) cid = some c2 ∧
      ∀ v ∈ c.enrollments, v ∈ c2.enrollments := by
  match op with
  | .opSaveTxn t =>
    refine ⟨c, ?_, fun v hv => hv⟩
    simp only [applyOp]
    unfold getCourse at h ⊢
    rw [saveTransaction_courses]
    exact h
  | .opSaveProgress p =>
    refine ⟨c, ?_, fun v hv => hv⟩
    simp only [applyOp]
    unfold getCourse at h ⊢
    rw [saveProgress_courses]
    exact h
  | .opAddEnroll cid2 uid =>
    simp only [applyOp]
    rw [getCourse_updateEnroll, h]
    by_cases hc2 : (c.id == cid2) = true
    · rw [Option.map_some', if_pos hc2]
      exact ⟨addEnrollment c uid, rfl,
        fun v hv => (mem_addEnrollment_iff c uid v).mpr (Or.inl hv)⟩
    · rw [Option.map_some', if_neg hc2]
      exact ⟨c, rfl, fun v hv => hv⟩

lemma applyOps_getCourse_mono (l : List StoreOp) (db : DB) (cid : String) (c : Course)
    (h : getCourse db cid = some c) :
    ∃ c2, getCourse (applyOps db l) cid = some c2 ∧
      ∀ v ∈ c.enrollments, v ∈ c2.enrollments := by
  induction l generalizing db c with
  | nil => exact ⟨c, h, fun v hv => hv⟩
  | cons op rest ih =>
    rcases applyOp_getCourse_mono db op cid c h with ⟨c1, h1, hsub1⟩
    rcases ih (applyOp db op) c1 h1 with ⟨c2, h2, hsub2⟩
    exact ⟨c2, h2, fun v hv => hsub2 v (hsub1 v hv)⟩

lemma applyOp_addEnroll_mem (db : DB) (cid uid : String) (c : Course)
    (h : getCourse db cid = some c) :
    ∃ c2, getCourse (applyOp db (.opAddEnroll cid uid)) cid = some c2 ∧
      uid ∈ c2.enrollments := by
  have hcid : (c.id == cid) = true := beq_iff_eq.mpr (getCourse_found_id db cid c h)
  simp only [applyOp]
  rw [getCourse_updateEnroll, h, Option.map_some', if_pos hcid]
  exact ⟨addEnrollment c uid, rfl, mem_addEnrollment c uid⟩

lemma applyOps_append (db : DB) (l1 l2 : List StoreOp) :
    applyOps db (l1 ++ l2) = applyOps (applyOps db l1) l2 := by
  induction l1 generalizing db with
  | nil => rfl
  | cons op rest ih => simpa [applyOps] using ih (applyOp db op)

lemma Interleaving.sublist_left {xs ys zs : List StoreOp}
    (h : Interleaving xs ys zs) : xs.Sublist zs := by
  induction h with
  | nil => exact List.Sublist.refl []
  | left _ ih => exact ih.cons₂ _
  | right _ ih => exact ih.cons _

lemma Interleaving.sublist_right {xs ys zs : List StoreOp}
    (h : Interleaving xs ys zs) : ys.Sublist zs := by
  induction h with
  | nil => exact List.Sublist.refl []
  | left _ ih => exact ih.cons _
  | right _ ih => exact ih.cons₂ _

lemma enrolled_after_ops (zs : List StoreOp) (db : DB) (cid uid : String)
    (hmem : StoreOp.opAddEnroll cid uid ∈ zs)
    (hc : (getCourse db cid).isSome = true) :
    ∃ c2, getCourse (applyOps db zs) cid = some c2 ∧ uid ∈ c2.enrollments := by
  rcases List.append_of_mem hmem with ⟨as, bs, rfl⟩
  rcases Option.isSome_iff_exists.mp hc with ⟨c0, hc0⟩
  rcases applyOps_getCourse_mono as db cid c0 hc0 with ⟨ca, hca, _⟩
  rcases applyOp_addEnroll_mem (applyOps db as) cid uid ca hca with ⟨cb, hcb, hub⟩
  rcases applyOps_getCourse_mono bs
      (applyOp (applyOps db as) (.opAddEnroll cid uid)) cid cb hcb with ⟨c2, hc2, hsub⟩
  refine ⟨c2, ?_, hsub uid hub⟩
  rw [applyOps_append]
  simpa [applyOps] using hc2

lemma getCourse_isSome_applyOps (l : List StoreOp) (db : DB) (cid : String)
    (hc : (getCourse db cid).isSome = true) :
    (getCourse (applyOps db l) cid).isSome = true := by
  rcases Option.isSome_iff_exists.mp hc with ⟨c0, hc0⟩
  rcases applyOps_getCourse_mono l db cid c0 hc0 with ⟨c2, hc2, _⟩
  rw [hc2]
  rfl

/-- Sequential scheduling is one interleaving: all of `xs`, then `ys`. -/
lemma interleaving_append (xs ys : List StoreOp) : Interleaving xs ys (xs ++ ys) := by
  induction xs with
  | nil =>
    induction ys with
    | nil => exact .nil
    | cons y ys ihy => exact .right ihy
  | cons x xs ihx => exact .left ihx

/-! ## Branch equations for `createTransaction` -/

lemma createTransaction_notFound (db : DB) (req : PurchaseRequest) (now : String)
    (oracle : Oracle) (h : getCourse db req.courseId = none) :
    createTransaction db req now oracle =
      (.notFound "Course not found", db, [.courseGet req.courseId]) := by
  unfold createTransaction
  rw [h]

lemma createTransaction_txnFail (db : DB) (req : PurchaseRequest) (now : String)
    (course : Course) (b1 b2 : Bool) (hc : getCourse db req.courseId = some course) :
    createTransaction db req now ⟨false, b1, b2⟩ =
      (.serverError transactionFailedMsg, db,
       [.courseGet req.courseId, .txnSave (mkTransaction req now)]) := by
  unfold createTransaction
  rw [hc]
  rfl

lemma createTransaction_progressFail (db : DB) (req : PurchaseRequest) (now : String)
    (course : Course) (b2 : Bool) (hc : getCourse db req.courseId = some course) :
    createTransaction db req now ⟨true, false, b2⟩ =
      (.serverError transactionFailedMsg, saveTransaction db (mkTransaction req now),
       [.courseGet req.courseId, .txnSave (mkTransaction req now),
        .progressSave (initialProgressFor req now course)]) := by
  unfold createTransaction
  rw [hc]
  rfl

lemma createTransaction_enrollFail (db : DB) (req : PurchaseRequest) (now : String)
    (course : Course) (hc : getCourse db req.courseId = some course) :
    createTransaction db req now ⟨true, true, false⟩ =
      (.serverError transactionFailedMsg,
       saveProgress (saveTransaction db (mkTransaction req now))
         (initialProgressFor req now course),
       [.courseGet req.courseId, .txnSave (mkTransaction req now),
        .progressSave (initialProgressFor req now course),
        .courseUpdate req.courseId (.addEnrollments [req.userId])]) := by
  unfold createTransaction
  rw [hc]
  rfl

lemma createTransaction_success (db : DB) (req : PurchaseRequest) (now : String)
    (course : Course) (hc : getCourse db req.courseId = some course) :
    createTransaction db req now ⟨true, true, true⟩ =
      (.ok { transaction := mkTransaction req now,
             courseProgress := initialProgressFor req now course },
       updateEnroll
         (saveProgress (saveTransaction db (mkTransaction req now))
           (initialProgressFor req now course))
         req.courseId req.userId,
       [.courseGet req.courseId, .txnSave (mkTransaction req now),
        .progressSave (initialProgressFor req now course),
        .courseUpdate req.courseId (.addEnrollments [req.userId])]) := by
  unfold createTransaction
  rw [hc]
  rfl

/-- `addEnrollment` of an already enrolled user is the identity (the
set-union merge). -/
lemma addEnrollment_of_mem (c : Course) (uid : String) (h : uid ∈ c.enrollments) :
    addEnrollment c uid = c := by
  unfold addEnrollment
  rw [if_pos h]

/-! ## Concrete sample inputs -/

/-- A concrete course with two sections of 1 and 2 chapters. -/
def sampleCourse : Course :=
  { id := "c1", title := "Algebra", teacherName := "Ada", price := 49,
    sections := [{ sectionId := "s1", chapters := [{ chapterId := "ch1" }] },
                 { sectionId := "s2",
                   chapters := [{ chapterId := "ch2" }, { chapterId := "ch3" }] }],
    enrollments := [] }

/-- A store holding only `sampleCourse`. -/
def sampleDB : DB := { courses := [sampleCourse], transactions := [], progresses := [] }

/-- An empty store (no courses). -/
def emptyDB : DB := { courses := [], transactions := [], progresses := [] }

/-- A concrete purchase request for `sampleCourse` by user `u1`. -/
def sampleReq : PurchaseRequest :=
  { userId := "u1", courseId := "c1", transactionId := "t1", amount := 49,
    paymentProvider := "stripe" }

/-- A concrete purchase request for `sampleCourse` by a second user `u2`. -/
def sampleReq2 : PurchaseRequest :=
  { userId := "u2", courseId := "c1", transactionId := "t2", amount := 49,
    paymentProvider := "stripe" }

/-- A concrete timestamp. -/
def sampleNow : String := "2024-01-01T00:00:00Z"

/-! ## Claim theorems -/

/-- C1: for every existing course, a successful `purchaseCourse`
(`createTransaction`) call creates exactly one new Transaction record,
exactly one new UserCourseProgress record keyed by (userId, courseId),
and exactly one new entry in the Course's enrollment collection, all
three carrying the request's userId and courseId.  The freshness
hypotheses say the purchase is new: no prior transaction with this
transaction id, no prior progress for this (userId, courseId), and the
user not yet enrolled. -/
theorem C1_purchase_creates_one_of_each
    (db : DB) (req : PurchaseRequest) (now : String) (course : Course)
    (hc : getCourse db req.courseId = some course)
    (hft : ∀ u ∈ db.transactions, u.transactionId ≠ req.transactionId)
    (hfp : ∀ q ∈ db.progresses, ¬(q.userId = req.userId ∧ q.courseId = req.courseId))
    (hfe : req.userId ∉ course.enrollments) :
    (createTransaction db req now ⟨true, true, true⟩).1 =
      .ok { transaction := mkTransaction req now,
            courseProgress := initialProgressFor req now course } ∧
    (createTransaction db req now ⟨true, true, true⟩).2.1.transactions =
      db.transactions ++ [mkTransaction req now] ∧
    (createTransaction db req now ⟨true, true, true⟩).2.1.progresses =
      db.progresses ++ [initialProgressFor req now course] ∧
    getCourse (createTransaction db req now ⟨true, true, true⟩).2.1 req.courseId =
      some { course with enrollments := course.enrollments ++ [req.userId] } ∧
    (mkTransaction req now).userId = req.userId ∧
    (mkTransaction req now).courseId = req.courseId ∧
    (initialProgressFor req now course).userId = req.userId ∧
    (initialProgressFor req now course).courseId = req.courseId := by
  rw [createTransaction_success db req now course hc]
  refine ⟨rfl, ?_, ?_, ?_, rfl, rfl, rfl, rfl⟩
  · rw [updateEnroll_transactions, saveProgress_transactions]
    exact saveTransaction_of_fresh db (mkTransaction req now) (fun u hu => hft u hu)
  · rw [updateEnroll_progresses]
    rw [saveProgress_of_fresh]
    · rw [saveTransaction_progresses]
    · intro q hq
      rw [saveTransaction_progresses] at hq
      exact hfp q hq
  · rw [getCourse_updateEnroll]
    have hcour : getCourse
        (saveProgress (saveTransaction db (mkTransaction req now))
          (initialProgressFor req now course)) req.courseId = some course := by
      unfold getCourse at hc ⊢
      rw [saveProgress_courses, saveTransaction_courses]
      exact hc
    have hcid : (course.id == req.courseId) = true :=
      beq_iff_eq.mpr (getCourse_found_id db req.courseId course hc)
    rw [hcour, Option.map_some', if_pos hcid,
      addEnrollment_of_not_mem course req.userId hfe]

/-- Witness for C1 on a concrete course and a fresh purchase request. -/
theorem C1_witness :
    (createTransaction sampleDB sampleReq sampleNow ⟨true, true, true⟩).1 =
      .ok { transaction := mkTransaction sampleReq sampleNow,
            courseProgress := initialProgressFor sampleReq sampleNow sampleCourse } ∧
    (createTransaction sampleDB sampleReq sampleNow ⟨true, true, true⟩).2.1.transactions =
      sampleDB.transactions ++ [mkTransaction sampleReq sampleNow] ∧
    (createTransaction sampleDB sampleReq sampleNow ⟨true, true, true⟩).2.1.progresses =
      sampleDB.progresses ++ [initialProgressFor sampleReq sampleNow sampleCourse] ∧
    getCourse (createTransaction sampleDB sampleReq sampleNow ⟨true, true, true⟩).2.1
        sampleReq.courseId =
      some { sampleCourse with
             enrollments := sampleCourse.enrollments ++ [sampleReq.userId] } ∧
    (mkTransaction sampleReq sampleNow).userId = sampleReq.userId ∧
    (mkTransaction sampleReq sampleNow).courseId = sampleReq.courseId ∧
    (initialProgressFor sampleReq sampleNow sampleCourse).userId = sampleReq.userId ∧
    (initialProgressFor sampleReq sampleNow sampleCourse).courseId = sampleReq.courseId :=
  C1_purchase_creates_one_of_each sampleDB sampleReq sampleNow sampleCourse
    (by decide) (by simp [sampleDB]) (by simp [sampleDB]) (by decide)

/-- C2: the UserCourseProgress created by a successful purchase mirrors
the course's section/chapter structure at purchase time: same section
ids in order, one completion entry per chapter with the same chapter
ids in order, every completion flag `false`, and overall progress 0. -/
theorem C2_progress_mirrors_structure
    (db : DB) (req : PurchaseRequest) (now : String) (course : Course)
    (hc : getCourse db req.courseId = some course) :
    (createTransaction db req now ⟨true, true, true⟩).1 =
      .ok { transaction := mkTransaction req now,
            courseProgress := initialProgressFor req now course } ∧
    (initialProgressFor req now course).overallProgress = 0 ∧
    (initialProgressFor req now course).sections.map (fun ps => ps.sectionId) =
      course.sections.map (fun s => s.sectionId) ∧
    (initialProgressFor req now course).sections.map
        (fun ps => ps.chapters.map (fun pc => pc.chapterId)) =
      course.sections.map (fun s => s.chapters.map (fun ch => ch.chapterId)) ∧
    (∀ ps ∈ (initialProgressFor req now course).sections,
      ∀ pc ∈ ps.chapters, pc.completed = false) := by
  refine ⟨?_, rfl, ?_, ?_, ?_⟩
  · rw [createTransaction_success db req now course hc]
  · simp [initialProgressFor]
  · simp [initialProgressFor]
  · intro ps hps pc hpc
    simp only [initialProgressFor, List.mem_map] at hps
    rcases hps with ⟨s, _, rfl⟩
    simp only [List.mem_map] at hpc
    rcases hpc with ⟨ch, _, rfl⟩
    rfl

/-- Witness for C2 on the concrete two-section sample course. -/
theorem C2_witness :
    (createTransaction sampleDB sampleReq sampleNow ⟨true, true, true⟩).1 =
      .ok { transaction := mkTransaction sampleReq sampleNow,
            courseProgress := initialProgressFor sampleReq sampleNow sampleCourse } ∧
    (initialProgressFor sampleReq sampleNow sampleCourse).overallProgress = 0 ∧
    (initialProgressFor sampleReq sampleNow sampleCourse).sections.map
        (fun ps => ps.sectionId) =
      sampleCourse.sections.map (fun s => s.sectionId) ∧
    (initialProgressFor sampleReq sampleNow sampleCourse).sections.map
        (fun ps => ps.chapters.map (fun pc => pc.chapterId)) =
      sampleCourse.sections.map (fun s => s.chapters.map (fun ch => ch.chapterId)) ∧
    (∀ ps ∈ (initialProgressFor sampleReq sampleNow sampleCourse).sections,
      ∀ pc ∈ ps.chapters, pc.completed = false) :=
  C2_progress_mirrors_structure sampleDB sampleReq sampleNow sampleCourse (by decide)

/-- C3: when the courseId resolves to no course, `createTransaction`
returns the NotFound error (HTTP 404) and performs no writes: the store
state is returned unchanged. -/
theorem C3_missing_course_is_404_without_writes
    (db : DB) (req : PurchaseRequest) (now : String) (oracle : Oracle)
    (h : getCourse db req.courseId = none) :
    (createTransaction db req now oracle).1 = .notFound "Course not found" ∧
    ((createTransaction db req now oracle).1).status = 404 ∧
    (createTransaction db req now oracle).2.1 = db := by
  rw [createTransaction_notFound db req now oracle h]
  exact ⟨rfl, rfl, rfl⟩

/-- Witness for C3 on an empty store. -/
theorem C3_witness :
    (createTransaction emptyDB sampleReq sampleNow ⟨true, true, true⟩).1 =
      .notFound "Course not found" ∧
    ((createTransaction emptyDB sampleReq sampleNow ⟨true, true, true⟩).1).status = 404 ∧
    (createTransaction emptyDB sampleReq sampleNow ⟨true, true, true⟩).2.1 = emptyDB :=
  C3_missing_course_is_404_without_writes emptyDB sampleReq sampleNow
    ⟨true, true, true⟩ (by decide)

/-- C4: when any of the three writes of steps 2-4 fails, the caller
receives the single generic error (HTTP 500 with the catch-all
message), and no rollback occurs: if the failure happened after the
transaction write succeeded, the transaction record remains persisted
in the final state. -/
theorem C4_downstream_failure_generic_error_no_rollback
    (db : DB) (req : PurchaseRequest) (now : String) (oracle : Oracle) (course : Course)
    (hc : getCourse db req.courseId = some course)
    (hfail : oracle.txnOk = false ∨ oracle.progressOk = false ∨ oracle.enrollOk = false) :
    (createTransaction db req now oracle).1 = .serverError transactionFailedMsg ∧
    ((createTransaction db req now oracle).1).status = 500 ∧
    (oracle.txnOk = true →
      mkTransaction req now ∈ (createTransaction db req now oracle).2.1.transactions) := by
  rcases oracle with ⟨tok, pok, eok⟩
  cases tok
  · rw [createTransaction_txnFail db req now course pok eok hc]
    exact ⟨rfl, rfl, fun h => Bool.noConfusion h⟩
  · cases pok
    · rw [createTransaction_progressFail db req now course eok hc]
      exact ⟨rfl, rfl, fun _ => saveTransaction_mem db (mkTransaction req now)⟩
    · cases eok
      · rw [createTransaction_enrollFail db req now course hc]
        refine ⟨rfl, rfl, fun _ => ?_⟩
        rw [saveProgress_transactions]
        exact saveTransaction_mem db (mkTransaction req now)
      · simp at hfail

/-- Witness for C4: the progress write fails after the transaction
write succeeded; the error is the generic 500 and the transaction
stays persisted. -/
theorem C4_witness :
    (createTransaction sampleDB sampleReq sampleNow ⟨true, false, true⟩).1 =
      .serverError transactionFailedMsg ∧
    ((createTransaction sampleDB sampleReq sampleNow ⟨true, false, true⟩).1).status = 500 ∧
    ((true : Bool) = true →
      mkTransaction sampleReq sampleNow ∈
        (createTransaction sampleDB sampleReq sampleNow ⟨true, false, true⟩).2.1.transactions) :=
  C4_downstream_failure_generic_error_no_rollback sampleDB sampleReq sampleNow
    ⟨true, false, true⟩ sampleCourse (by decide) (Or.inr (Or.inl rfl))

/-- C5: in every execution of `createTransaction`, in the issued
operation trace every progress write and every course-enrollment update
is strictly preceded by the transaction write, so the enrollment append
never precedes transaction persistence; moreover whenever any
downstream write was issued, the transaction record is persisted in the
final state. -/
theorem C5_transaction_written_first
    (db : DB) (req : PurchaseRequest) (now : String) (oracle : Oracle) :
    (∀ i, ∀ hi : i < ((createTransaction db req now oracle).2.2).length,
      isDownstreamWrite (((createTransaction db req now oracle).2.2).get ⟨i, hi⟩) = true →
      ∃ j, j < i ∧ ∃ hj : j < ((createTransaction db req now oracle).2.2).length,
        isTxnSave (((createTransaction db req now oracle).2.2).get ⟨j, hj⟩) = true) ∧
    (((createTransaction db req now oracle).2.2).any isDownstreamWrite = true →
      mkTransaction req now ∈ (createTransaction db req now oracle).2.1.transactions) := by
  have key : txnFirst ((createTransaction db req now oracle).2.2) = true ∧
      (((createTransaction db req now oracle).2.2).any isDownstreamWrite = true →
        mkTransaction req now ∈ (createTransaction db req now oracle).2.1.transactions) := by
    rcases oracle with ⟨tok, pok, eok⟩
    cases hgc : getCourse db req.courseId with
    | none =>
      rw [createTransaction_notFound db req now ⟨tok, pok, eok⟩ hgc]
      exact ⟨rfl, fun h => Bool.noConfusion h⟩
    | some course =>
      cases tok
      · rw [createTransaction_txnFail db req now course pok eok hgc]
        exact ⟨rfl, fun h => Bool.noConfusion h⟩
      · cases pok
        · rw [createTransaction_progressFail db req now course eok hgc]
          exact ⟨rfl, fun _ => saveTransaction_mem db (mkTransaction req now)⟩
        · cases eok
          · rw [createTransaction_enrollFail db req now course hgc]
            refine ⟨rfl, fun _ => ?_⟩
            rw [saveProgress_transactions]
            exact saveTransaction_mem db (mkTransaction req now)
          · rw [createTransaction_success db req now course hgc]
            refine ⟨rfl, fun _ => ?_⟩
            rw [updateEnroll_transactions, saveProgress_transactions]
            exact saveTransaction_mem db (mkTransaction req now)
  exact ⟨txnFirst_spec _ key.1, key.2⟩

/-- Witness for C5: on the sample purchase the progress write at trace
position 2 is preceded by a transaction write, and the transaction is
persisted. -/
theorem C5_witness :
    (∃ j, j < 2 ∧
      ∃ hj : j < ((createTransaction sampleDB sampleReq sampleNow
          ⟨true, true, true⟩).2.2).length,
        isTxnSave (((createTransaction sampleDB sampleReq sampleNow
          ⟨true, true, true⟩).2.2).get ⟨j, hj⟩) = true) ∧
    mkTransaction sampleReq sampleNow ∈
      (createTransaction sampleDB sampleReq sampleNow ⟨true, true, true⟩).2.1.transactions :=
  ⟨(C5_transaction_written_first sampleDB sampleReq sampleNow ⟨true, true, true⟩).1
      2 (by decide) (by decide),
   (C5_transaction_written_first sampleDB sampleReq sampleNow ⟨true, true, true⟩).2
      (by decide)⟩

/-- C6: the enrollment update is additive and idempotent with
set-union (commutative merge) semantics — adding the same userId twice
equals adding it once, existing entries are preserved, and two adds
commute up to membership — and `createTransaction` issues it as an
`$ADD`-style patch carrying only the userId, not a whole-record write. -/
theorem C6_enrollment_update_idempotent_merge
    (c : Course) (u v w : String) (db : DB) (req : PurchaseRequest) (now : String)
    (course : Course) (hc : getCourse db req.courseId = some course) :
    addEnrollment (addEnrollment c u) u = addEnrollment c u ∧
    (∀ x ∈ c.enrollments, x ∈ (addEnrollment c u).enrollments) ∧
    (∀ x, x ∈ (addEnrollment (addEnrollment c v) w).enrollments ↔
          x ∈ (addEnrollment (addEnrollment c w) v).enrollments) ∧
    Event.courseUpdate req.courseId (CoursePatch.addEnrollments [req.userId]) ∈
      (createTransaction db req now ⟨true, true, true⟩).2.2 := by
  refine ⟨addEnrollment_of_mem _ u (mem_addEnrollment c u), ?_, ?_, ?_⟩
  · exact fun x hx => (mem_addEnrollment_iff c u x).mpr (Or.inl hx)
  · intro x
    simp only [mem_addEnrollment_iff]
    tauto
  · rw [createTransaction_success db req now course hc]
    simp

/-- Witness for C6 on a concrete course, users and purchase. -/
theorem C6_witness :
    addEnrollment (addEnrollment sampleCourse "u1") "u1" = addEnrollment sampleCourse "u1" ∧
    (∀ x ∈ sampleCourse.enrollments, x ∈ (addEnrollment sampleCourse "u1").enrollments) ∧
    (∀ x, x ∈ (addEnrollment (addEnrollment sampleCourse "u1") "u2").enrollments ↔
          x ∈ (addEnrollment (addEnrollment sampleCourse "u2") "u1").enrollments) ∧
    Event.courseUpdate sampleReq.courseId (CoursePatch.addEnrollments [sampleReq.userId]) ∈
      (createTransaction sampleDB sampleReq sampleNow ⟨true, true, true⟩).2.2 :=
  C6_enrollment_update_idempotent_merge sampleCourse "u1" "u1" "u2"
    sampleDB sampleReq sampleNow sampleCourse (by decide)

/-- C7: an absent, zero or negative amount is not rejected: the payment
intent is created for the minimum charge amount 50 and its client
secret returned, exactly as for the valid amount 50. -/
theorem C7_invalid_amount_coerced_to_minimum
    (gateway : Int → PaymentIntent) (a : Option Int)
    (h : a = none ∨ ∃ x, a = some x ∧ x ≤ 0) :
    createStripePaymentIntent gateway a =
      .ok { clientSecret := (gateway 50).clientSecret } ∧
    createStripePaymentIntent gateway a = createStripePaymentIntent gateway (some 50) ∧
    (createStripePaymentIntent gateway a).status = 200 := by
  have hco : coerceAmount a = 50 := by
    rcases h with rfl | ⟨x, rfl, hx⟩
    · rfl
    · simp [coerceAmount, hx]
  have h50 : coerceAmount (some 50) = 50 := by decide
  unfold createStripePaymentIntent
  rw [hco, h50]
  exact ⟨rfl, rfl, rfl⟩

/-- Witness for C7 at the concrete amount -5. -/
theorem C7_witness :
    createStripePaymentIntent (fun a => ⟨a, "usd", "sec"⟩) (some (-5)) =
      .ok { clientSecret := ((fun a => (⟨a, "usd", "sec"⟩ : PaymentIntent)) 50).clientSecret } ∧
    createStripePaymentIntent (fun a => ⟨a, "usd", "sec"⟩) (some (-5)) =
      createStripePaymentIntent (fun a => ⟨a, "usd", "sec"⟩) (some 50) ∧
    (createStripePaymentIntent (fun a => ⟨a, "usd", "sec"⟩) (some (-5))).status = 200 :=
  C7_invalid_amount_coerced_to_minimum (fun a => ⟨a, "usd", "sec"⟩) (some (-5))
    (Or.inr ⟨-5, rfl, by decide⟩)

/-- C8: for any interleaving of the write sequences of two purchases of
the same course by two users, the course lookup succeeds at every
intermediate point (both calls succeed) and the final enrollment
collection contains both users — no lost update. -/
theorem C8_concurrent_purchases_no_lost_update
    (db : DB) (req1 req2 : PurchaseRequest) (now1 now2 : String)
    (course1 course2 : Course) (zs : List StoreOp)
    (hcid : req2.courseId = req1.courseId)
    (hc : (getCourse db req1.courseId).isSome = true)
    (hint : Interleaving (purchaseOps req1 now1 course1)
      (purchaseOps req2 now2 course2) zs) :
    (∀ n, (getCourse (applyOps db (List.take n zs)) req1.courseId).isSome = true) ∧
    ∃ c2, getCourse (applyOps db zs) req1.courseId = some c2 ∧
      req1.userId ∈ c2.enrollments ∧ req2.userId ∈ c2.enrollments := by
  constructor
  · intro n
    exact getCourse_isSome_applyOps (List.take n zs) db req1.courseId hc
  · have hmem1 : StoreOp.opAddEnroll req1.courseId req1.userId ∈ zs := by
      have hx : StoreOp.opAddEnroll req1.courseId req1.userId ∈
          purchaseOps req1 now1 course1 := by simp [purchaseOps]
      exact hint.sublist_left.subset hx
    have hmem2 : StoreOp.opAddEnroll req1.courseId req2.userId ∈ zs := by
      have hx : StoreOp.opAddEnroll req2.courseId req2.userId ∈
          purchaseOps req2 now2 course2 := by simp [purchaseOps]
      rw [hcid] at hx
      exact hint.sublist_right.subset hx
    rcases enrolled_after_ops zs db req1.courseId req1.userId hmem1 hc with ⟨ca, hca, h1⟩
    rcases enrolled_after_ops zs db req1.courseId req2.userId hmem2 hc with ⟨cb, hcb, h2⟩
    have hab : ca = cb := by
      rw [hca] at hcb
      exact Option.some_injective _ hcb
    refine ⟨ca, hca, h1, ?_⟩
    rw [hab]
    exact h2

/-- Witness for C8: the two sample purchases scheduled sequentially as
one concrete interleaving; both users end up enrolled. -/
theorem C8_witness :
    (∀ n, (getCourse (applyOps sampleDB (List.take n
        (purchaseOps sampleReq sampleNow sampleCourse ++
         purchaseOps sampleReq2 sampleNow sampleCourse))) sampleReq.courseId).isSome
        = true) ∧
    ∃ c2, getCourse (applyOps sampleDB
        (purchaseOps sampleReq sampleNow sampleCourse ++
         purchaseOps sampleReq2 sampleNow sampleCourse)) sampleReq.courseId = some c2 ∧
      sampleReq.userId ∈ c2.enrollments ∧ sampleReq2.userId ∈ c2.enrollments :=
  C8_concurrent_purchases_no_lost_update sampleDB sampleReq sampleReq2
    sampleNow sampleNow sampleCourse sampleCourse
    (purchaseOps sampleReq sampleNow sampleCourse ++
     purchaseOps sampleReq2 sampleNow sampleCourse)
    rfl (by decide)
    (interleaving_append (purchaseOps sampleReq sampleNow sampleCourse)
      (purchaseOps sampleReq2 sampleNow sampleCourse))

/-- C9: when `updateCourse` receives an image file, the S3 upload is
issued before the catalog-store write and the object URL is merged into
the payload as `imageUrl`; with no file the payload is applied
unchanged. -/
theorem C9_image_uploaded_before_catalog_write
    (bucket region courseId : String) (updates : List (String × String))
    (f : UploadedFile) :
    updateCourse bucket region courseId updates (some f) =
      [Event.s3Put (imageKey courseId f.originalname),
       Event.courseUpdate courseId (CoursePatch.fields
         (setField updates "imageUrl" (imageUrl bucket region courseId f.originalname)))] ∧
    updateCourse bucket region courseId updates none =
      [Event.courseUpdate courseId (CoursePatch.fields updates)] :=
  ⟨rfl, rfl⟩

/-- C10: `listTransactions` without a userId filter does not fail and
returns every transaction in the store; with a userId it returns
exactly that user's transactions. -/
theorem C10_list_without_user_is_full_scan (db : DB) (uid : String) :
    listTransactions db none = .ok db.transactions ∧
    (listTransactions db none).status = 200 ∧
    (∃ l, listTransactions db (some uid) = .ok l ∧
      ∀ t, t ∈ l ↔ (t ∈ db.transactions ∧ t.userId = uid)) := by
  refine ⟨rfl, rfl, db.transactions.filter (fun t => t.userId == uid), rfl, ?_⟩
  intro t
  simp [List.mem_filter]

end LMS
